import Mathlib

/-!
Shallow embedding of the credential subsystem of `src/server.js`
(the hardball alliance content API): the `/api/auth/login` and
`/api/auth/register` Express handlers, the `userIsAuthorized` check and the
`generatePasswordHash` key-derivation function, together with the PostgreSQL
table `hardball.auth` they operate on.

Modelling conventions:
* A row of `hardball.auth` is an `AuthRow`; the nullable columns `salt`,
  `token`, `pass_hash` are `Option String` (`none` = SQL NULL).  The table is
  a `List AuthRow`.
* `crypto.pbkdf2Sync(secret, salt, 100000, 64, 'sha256').toString('hex')` is
  embedded twice, at two levels of abstraction: `generatePasswordHash` is the
  concrete construction (PBKDF2-HMAC-SHA256 over UTF-8 bytes, hex encoded),
  while the request handlers are parameterised by an arbitrary derivation
  function `hashFn : String → String → String` standing for it, because a
  100000-iteration derivation can never be evaluated inside a proof.  Node's
  `pbkdf2Sync` throws a `TypeError` when its password or salt argument is not
  a string (e.g. `undefined` or `null`); `generatePasswordHashOn` models
  exactly that type check, returning `Except`.
* `crypto.randomBytes(32).toString('hex')` is nondeterministic, so the fresh
  salt and token of a registration are parameters of the model.
* Store (pg) errors are injected through explicit boolean flags, one per
  query of a handler, mirroring each `if (err)` test in the source.
-/

/-- One row of the `hardball.auth` table.  `salt`, `token` and `pass_hash`
are nullable columns. -/
structure AuthRow where
  id : Nat
  username : String
  salt : Option String
  token : Option String
  pass_hash : Option String
deriving DecidableEq, Repr

/-- The `hardball.auth` table. -/
abbrev AuthDb := List AuthRow

/-- Rows returned by `SELECT ... FROM hardball.auth WHERE username = $1`
(both the login and the register handler issue this shape of query). -/
def findRows (db : AuthDb) (name : String) : List AuthRow :=
  db.filter (fun r => r.username == name)

/-- JavaScript truthiness of the `token` column value as tested by
`!result.rows[0]['token']` in the register handler: SQL NULL (`none`) and
the empty string are falsy, every other string is truthy. -/
def jsTruthyToken : Option String → Bool
  | none => false
  | some s => !(s == "")

/-- SQL equality `col = $n` between a nullable column value and a parameter:
a NULL on either side never compares equal. -/
def sqlEq : Option String → Option String → Bool
  | some a, some b => a == b
  | _, _ => false

/-- Model of calling `generatePasswordHash(secret, salt)` from a handler,
where either argument may be a non-string JavaScript value (`undefined` /
SQL NULL), embedded as `none`.  Node's `crypto.pbkdf2Sync` throws a
`TypeError` on a non-string password or salt; with two strings it returns
the derived hex string, abstracted here as `hashFn secret salt`. -/
def generatePasswordHashOn (hashFn : String → String → String) :
    Option String → Option String → Except Unit String
  | some secret, some salt => .ok (hashFn secret salt)
  | _, _ => .error ()

/-- The error message of the login handler, sent both when the username is
unknown and when the password hash does not match. -/
def loginErrMsg : String := "Either the username or password is incorrect"

/-- JSON bodies produced by the two auth handlers, field for field:
`loginOk` is `{'user', 'status', 'token'}`, `loginErr` is
`{'user', 'status', 'error'}`, `regOk` is `{'user', 'status'}` and
`regErr` is `{'status', 'error'}` (the register error bodies carry no
`user` field in the source). -/
inductive RespBody where
  | loginOk (user : String) (status : Nat) (token : Option String)
  | loginErr (user : String) (status : Nat) (error : String)
  | regOk (user : String) (status : Nat)
  | regErr (status : Nat) (error : String)
deriving DecidableEq, Repr

/-- Outcome of the login handler: an HTTP response, or an uncaught
synchronous throw inside the `POOL.query` callback (the handler has no
try/catch, so nothing is ever sent in that case). -/
inductive LoginOutcome where
  | responded (status : Nat) (body : RespBody)
  | threw
deriving DecidableEq, Repr

/-- The `/api/auth/login` handler.  `errSel` injects a store error into its
single SELECT (the source rethrows it: `if (err) throw err`).  `pass` is the
`password` field of the request body, `none` when absent or non-string.
Transcribed from src/server.js lines 188-217: the handler takes the 200
branch only when the SELECT returned exactly one row and
`generatePasswordHash(pass, salt) === pass_hash`. -/
def login (hashFn : String → String → String) (errSel : Bool) (db : AuthDb)
    (name : String) (pass : Option String) : LoginOutcome :=
  if errSel then .threw
  else
    match findRows db name with
    | [row] =>
      match generatePasswordHashOn hashFn pass row.salt with
      | .error _ => .threw
      | .ok cand =>
        if row.pass_hash == some cand then
          .responded 200 (.loginOk name 200 row.token)
        else
          .responded 401 (.loginErr name 401 loginErrMsg)
    | _ => .responded 401 (.loginErr name 401 loginErrMsg)

/-- Store-error injection for the four queries of the register handler:
`BEGIN`, the SELECT, the UPDATE and `COMMIT`. -/
structure RegErrors where
  errBegin : Bool
  errSelect : Bool
  errUpdate : Bool
  errCommit : Bool
deriving DecidableEq, Repr

/-- No injected store errors. -/
def noErrors : RegErrors := ⟨false, false, false, false⟩

/-- Outcome of the register handler, carrying the committed table state it
leaves behind.  `noResponse` is the `shouldAbort` path of the source: the
transaction is rolled back and the client released, but no HTTP response is
ever sent.  `threw` is an uncaught synchronous throw inside a query
callback (transaction never committed, so the table is unchanged). -/
inductive RegOutcome where
  | responded (db : AuthDb) (status : Nat) (body : RespBody)
  | noResponse (db : AuthDb)
  | threw (db : AuthDb)
deriving DecidableEq, Repr

/-- The committed table state a register outcome leaves behind. -/
def RegOutcome.store : RegOutcome → AuthDb
  | .responded db _ _ => db
  | .noResponse db => db
  | .threw db => db

/-- `UPDATE hardball.auth SET salt = $1, token = $2, pass_hash = $3 WHERE
id = $4`: every row whose `id` matches is overwritten; there is no condition
on the current `token`. -/
def activateRow (db : AuthDb) (rowId : Nat) (salt token passHash : String) :
    AuthDb :=
  db.map (fun r =>
    if r.id == rowId then
      { r with salt := some salt, token := some token,
               pass_hash := some passHash }
    else r)

/-- The `/api/auth/register` handler, transcribed from src/server.js lines
220-293.  `freshSalt` and `freshToken` stand for the two
`crypto.randomBytes(32).toString('hex')` draws.  Control flow of the
source: any error at `BEGIN` or at the SELECT takes the `shouldAbort` path
(rollback, release, no response); a found row with a truthy token answers
409; a missing row answers 403; otherwise the row is updated and committed
and the handler answers 201 — note that an UPDATE error again aborts with no
response, while a failed COMMIT (transaction aborted, nothing written) is
merely logged and the handler still answers 201. -/
def register (hashFn : String → String → String)
    (freshSalt freshToken : String) (e : RegErrors) (db : AuthDb)
    (name : String) (pass : Option String) : RegOutcome :=
  if e.errBegin then .noResponse db
  else if e.errSelect then .noResponse db
  else
    match (findRows db name).head? with
    | some row =>
      if jsTruthyToken row.token then
        .responded db 409 (.regErr 409 "User is already registered!")
      else
        match generatePasswordHashOn hashFn pass (some freshSalt) with
        | .error _ => .threw db
        | .ok passHash =>
          if e.errUpdate then .noResponse db
          else if e.errCommit then .responded db 201 (.regOk name 201)
          else
            .responded (activateRow db row.id freshSalt freshToken passHash)
              201 (.regOk name 201)
    | none => .responded db 403 (.regErr 403 "This user is not allowed to register!")

/-- JavaScript `auth.split(':')` on the character list of the credential
string: splits at every colon, keeping empty pieces, so that
`"a:b:c"` gives `["a","b","c"]` and `""` gives `[""]`. -/
def splitCharList (c : Char) : List Char → List Char → List String
  | [], acc => [String.mk acc.reverse]
  | x :: xs, acc =>
    if x == c then String.mk acc.reverse :: splitCharList c xs []
    else splitCharList c xs (x :: acc)

/-- `auth.split(':')` of the source. -/
def splitColon (s : String) : List String := splitCharList ':' s.data []

/-- The `userIsAuthorized` function of src/server.js lines 40-51: it takes
`split[0]` as the username and `split[1]` as the token (undefined — `none` —
when the string holds no colon), runs
`SELECT id FROM hardball.auth WHERE username=$1 AND token=$2` and returns
`rows.length === 1`.  An undefined token parameter is sent as SQL NULL and
matches no row (`sqlEq`).  The function is total: it never throws, whatever
the shape of the credential string. -/
def userIsAuthorized (db : AuthDb) (auth : String) : Bool :=
  let parts := splitColon auth
  let user := parts.getD 0 ""
  let token := parts[1]?
  (db.filter (fun r => r.username == user && sqlEq r.token token)).length == 1

/-- Modelled from the spec (section 4.5), for comparison with
`userIsAuthorized`: split the credential at its FIRST colon only, so that a
token may itself contain colons; return true iff some row's username and
token exactly match the two components, false for malformed input (missing
delimiter, empty parts) or no match. -/
def authorizedSpec (db : AuthDb) (auth : String) : Bool :=
  match splitColon auth with
  | u :: rest@(_ :: _) =>
    let t := String.intercalate ":" rest
    if u == "" || t == "" then false
    else db.any (fun r => r.username == u && r.token == some t)
  | _ => false

/-- A trivial injective-enough stand-in derivation function used only to
evaluate the handler models on concrete inputs in witnesses and
counterexamples (the handlers are parameterised by the derivation
function). -/
def hashCat (secret salt : String) : String := secret ++ "|" ++ salt

/-!
Concrete model of `crypto.pbkdf2Sync(secret, salt, 100000, 64, 'sha256')
.toString('hex')` — PBKDF2-HMAC-SHA256 (RFC 2898 / RFC 6070) over SHA-256
(FIPS 180-4), bytes and 32-bit words embedded as `Nat` with explicit
reduction modulo 2^32.
-/

/-- Reduce modulo 2^32 (32-bit word arithmetic). -/
def w32 (x : Nat) : Nat := x % 4294967296

/-- Right rotation of a 32-bit word by `n`. -/
def rotr32 (n x : Nat) : Nat := w32 ((x >>> n) ||| (x <<< (32 - n)))

/-- SHA-256 big sigma 0. -/
def bsig0 (x : Nat) : Nat := Nat.xor (rotr32 2 x) (Nat.xor (rotr32 13 x) (rotr32 22 x))

/-- SHA-256 big sigma 1. -/
def bsig1 (x : Nat) : Nat := Nat.xor (rotr32 6 x) (Nat.xor (rotr32 11 x) (rotr32 25 x))

/-- SHA-256 small sigma 0. -/
def ssig0 (x : Nat) : Nat := Nat.xor (rotr32 7 x) (Nat.xor (rotr32 18 x) (x >>> 3))

/-- SHA-256 small sigma 1. -/
def ssig1 (x : Nat) : Nat := Nat.xor (rotr32 17 x) (Nat.xor (rotr32 19 x) (x >>> 10))

/-- SHA-256 Ch function; the 32-bit complement of `x` is its xor with the
all-ones word. -/
def chf (x y z : Nat) : Nat :=
  Nat.xor (Nat.land x y) (Nat.land (Nat.xor (w32 x) 4294967295) z)

/-- SHA-256 Maj function. -/
def majf (x y z : Nat) : Nat :=
  Nat.xor (Nat.land x y) (Nat.xor (Nat.land x z) (Nat.land y z))

/-- The eight 32-bit working variables of SHA-256. -/
structure Sha256State where
  a : Nat
  b : Nat
  c : Nat
  d : Nat
  e : Nat
  f : Nat
  g : Nat
  h : Nat
deriving Repr

/-- The SHA-256 initial hash value (FIPS 180-4, 5.3.3). -/
def sha256Init : Sha256State :=
  ⟨1779033703, 3144134277, 1013904242, 2773480762,
   1359893119, 2600822924, 528734635, 1541459225⟩

/-- The 64 SHA-256 round constants (FIPS 180-4, 4.2.2). -/
def sha256K : List Nat :=
  [1116352408, 1899447441, 3049323471, 3921009573, 961987163,
   1508970993, 2453635748, 2870763221, 3624381080, 310598401,
   607225278, 1426881987, 1925078388, 2162078206, 2614888103,
   3248222580, 3835390401, 4022224774, 264347078, 604807628,
   770255983, 1249150122, 1555081692, 1996064986, 2554220882,
   2821834349, 2952996808, 3210313671, 3336571891, 3584528711,
   113926993, 338241895, 666307205, 773529912, 1294757372,
   1396182291, 1695183700, 1986661051, 2177026350, 2456956037,
   2730485921, 2820302411, 3259730800, 3345764771, 3516065817,
   3600352804, 4094571909, 275423344, 430227734, 506948616,
   659060556, 883997877, 958139571, 1322822218, 1537002063,
   1747873779, 1955562222, 2024104815, 2227730452, 2361852424,
   2428436474, 2756734187, 3204031479, 3329325298]

/-- Parse a byte list into big-endian 32-bit words, four bytes per word. -/
def bytesToWords : List Nat → List Nat
  | b0 :: b1 :: b2 :: b3 :: rest =>
    (b0 * 16777216 + b1 * 65536 + b2 * 256 + b3) :: bytesToWords rest
  | _ => []

/-- Extend the 16 parsed words of a chunk by `n` further schedule words
(FIPS 180-4, 6.2.2 step 1); called with `n = 48`. -/
def extendSchedule : Nat → List Nat → List Nat
  | 0, ws => ws
  | n + 1, ws =>
    extendSchedule n (ws ++ [w32 (ssig1 (ws.getD (ws.length - 2) 0)
      + ws.getD (ws.length - 7) 0 + ssig0 (ws.getD (ws.length - 15) 0)
      + ws.getD (ws.length - 16) 0)])

/-- One SHA-256 compression round on the working variables, taking the pair
of the round constant and the schedule word. -/
def sha256Round (st : Sha256State) (kw : Nat × Nat) : Sha256State :=
  let t1 := st.h + bsig1 st.e + chf st.e st.f st.g + kw.1 + kw.2
  let t2 := bsig0 st.a + majf st.a st.b st.c
  ⟨w32 (t1 + t2), st.a, st.b, st.c, w32 (st.d + t1), st.e, st.f, st.g⟩

/-- Compress one 64-byte chunk into the running state (FIPS 180-4, 6.2.2). -/
def sha256Compress (st : Sha256State) (chunk : List Nat) : Sha256State :=
  let ws := extendSchedule 48 (bytesToWords chunk)
  let fin := (sha256K.zip ws).foldl sha256Round st
  ⟨w32 (st.a + fin.a), w32 (st.b + fin.b), w32 (st.c + fin.c),
   w32 (st.d + fin.d), w32 (st.e + fin.e), w32 (st.f + fin.f),
   w32 (st.g + fin.g), w32 (st.h + fin.h)⟩

/-- Fold the compression function over `n` successive 64-byte chunks. -/
def sha256Chunks : Nat → List Nat → Sha256State → Sha256State
  | 0, _, st => st
  | n + 1, msg, st => sha256Chunks n (msg.drop 64) (sha256Compress st (msg.take 64))

/-- Big-endian 8-byte encoding of a 64-bit length. -/
def int64be (x : Nat) : List Nat :=
  [x >>> 56 % 256, x >>> 48 % 256, x >>> 40 % 256, x >>> 32 % 256,
   x >>> 24 % 256, x >>> 16 % 256, x >>> 8 % 256, x % 256]

/-- Big-endian 4-byte encoding of a 32-bit integer (the PBKDF2 block
index). -/
def int32be (x : Nat) : List Nat :=
  [x >>> 24 % 256, x >>> 16 % 256, x >>> 8 % 256, x % 256]

/-- SHA-256 message padding (FIPS 180-4, 5.1.1): a 0x80 byte, zero bytes up
to 56 mod 64, then the bit length as a big-endian 64-bit integer. -/
def sha256Pad (msg : List Nat) : List Nat :=
  msg ++ [128] ++ List.replicate ((55 + 64 - msg.length % 64) % 64) 0
    ++ int64be (msg.length * 8)

/-- Big-endian 4-byte decomposition of a 32-bit word. -/
def wordBytes (x : Nat) : List Nat :=
  [x / 16777216 % 256, x / 65536 % 256, x / 256 % 256, x % 256]

/-- The SHA-256 digest of a byte list: pad, compress every 64-byte chunk,
and serialise the eight state words big-endian. -/
def sha256 (msg : List Nat) : List Nat :=
  let padded := sha256Pad msg
  let st := sha256Chunks (padded.length / 64) padded sha256Init
  wordBytes st.a ++ wordBytes st.b ++ wordBytes st.c ++ wordBytes st.d
    ++ wordBytes st.e ++ wordBytes st.f ++ wordBytes st.g ++ wordBytes st.h

/-- HMAC-SHA256 (RFC 2104) with a 64-byte block size: hash an over-long
key, zero-pad it, and apply the nested inner (0x36) and outer (0x5c) padded
hashes. -/
def hmacSha256 (key msg : List Nat) : List Nat :=
  let k0 := if 64 < key.length then sha256 key else key
  let kp := k0 ++ List.replicate (64 - k0.length) 0
  sha256 ((kp.map (fun b => Nat.xor b 92))
    ++ sha256 ((kp.map (fun b => Nat.xor b 54)) ++ msg))

/-- Byte-wise xor of two equal-length byte lists. -/
def xorBytes (a b : List Nat) : List Nat := List.zipWith Nat.xor a b

/-- The xor-accumulation loop of a PBKDF2 block: `n` further applications
of `U_j = HMAC(pw, U_(j-1))` xor-folded into the accumulator. -/
def pbkdf2Loop (pw : List Nat) : Nat → List Nat → List Nat → List Nat
  | 0, _, acc => acc
  | n + 1, u, acc =>
    pbkdf2Loop pw n (hmacSha256 pw u) (xorBytes acc (hmacSha256 pw u))

/-- Block `i` of PBKDF2-HMAC-SHA256 with `c` iterations:
`U_1 = HMAC(pw, salt ‖ INT(i))`, then `c - 1` further iterations xor-folded
onto `U_1`. -/
def pbkdf2Block (pw salt : List Nat) (c i : Nat) : List Nat :=
  pbkdf2Loop pw (c - 1) (hmacSha256 pw (salt ++ int32be i))
    (hmacSha256 pw (salt ++ int32be i))

/-- PBKDF2-HMAC-SHA256: concatenate `ceil(dkLen / 32)` blocks and truncate
to `dkLen` bytes. -/
def pbkdf2Sha256 (pw salt : List Nat) (c dkLen : Nat) : List Nat :=
  ((List.range ((dkLen + 31) / 32)).flatMap
    (fun j => pbkdf2Block pw salt c (j + 1))).take dkLen

/-- The sixteen lowercase hexadecimal digit characters, in value order. -/
def hexTable : List Char := "0123456789abcdef".data

/-- The lowercase hexadecimal digit of a value (taken modulo 16). -/
def hexDigit (n : Nat) : Char := hexTable.getD (n % 16) '0'

/-- Node `Buffer.toString('hex')`: two lowercase hexadecimal characters per
byte, high nibble first. -/
def bytesToHexString (bs : List Nat) : String :=
  String.mk (bs.flatMap (fun b => [hexDigit (b / 16), hexDigit b]))

/-- The UTF-8 bytes of a JavaScript string (Node's default encoding for
`pbkdf2Sync` string arguments). -/
def strBytes (s : String) : List Nat := s.toUTF8.toList.map (fun b => b.toNat)

/-- The iteration count hard-coded in `generatePasswordHash`
(src/server.js line 36). -/
def pbkdf2Iterations : Nat := 100000

/-- The `generatePasswordHash` function of src/server.js lines 35-38:
`crypto.pbkdf2Sync(secret, salt, 100000, 64, 'sha256').toString('hex')`. -/
def generatePasswordHash (secret salt : String) : String :=
  bytesToHexString (pbkdf2Sha256 (strBytes secret) (strBytes salt) pbkdf2Iterations 64)

/-!
Interleaving model of two concurrent `/api/auth/register` requests for the
same username, for the double-registration race.  The source wraps its
read-then-write sequence in `BEGIN` ... `COMMIT` on a pooled PostgreSQL
connection without selecting an isolation level, so the transactions run
under PostgreSQL's default READ COMMITTED isolation: the SELECT takes no
lock and reads the current committed table, and the UPDATE re-checks only
its own condition `WHERE id = $4` (which a concurrent activation does not
falsify) before writing.  Row locking serialises the write phases, so each
attempt is modelled as one atomic SELECT phase followed by one atomic
UPDATE-plus-COMMIT phase against the shared committed table, and a schedule
interleaves the phases of the two attempts.
-/

/-- The inputs of one concurrent registration attempt: requested username
and password and the two fresh `crypto.randomBytes` draws. -/
structure RegReq where
  name : String
  pass : String
  freshSalt : String
  freshToken : String
deriving DecidableEq, Repr

/-- Progress of one register transaction: not yet run, SELECT done (with the
row snapshot it returned), or responded with an HTTP status. -/
inductive AttemptPhase where
  | start
  | selected (row : Option AuthRow)
  | finished (status : Nat)
deriving DecidableEq, Repr

/-- Shared committed table plus the progress of the two attempts. -/
structure ConcState where
  db : AuthDb
  p1 : AttemptPhase
  p2 : AttemptPhase
deriving DecidableEq, Repr

/-- One atomic phase of a register transaction against the committed table,
following src/server.js lines 246-292: the SELECT phase snapshots the row
for the username; the write phase answers 403 when the snapshot was empty,
409 when the snapshot carried a truthy token, and otherwise runs the
unconditional UPDATE on the snapshot's row id, commits and answers 201.  A
finished attempt does nothing. -/
def attemptStep (hashFn : String → String → String) (req : RegReq)
    (db : AuthDb) : AttemptPhase → AuthDb × AttemptPhase
  | .start => (db, .selected (findRows db req.name).head?)
  | .selected none => (db, .finished 403)
  | .selected (some row) =>
    if jsTruthyToken row.token then (db, .finished 409)
    else
      (activateRow db row.id req.freshSalt req.freshToken
        (hashFn req.pass req.freshSalt), .finished 201)
  | .finished s => (db, .finished s)

/-- Run the next phase of attempt 1 (`false`) or attempt 2 (`true`). -/
def concStep (hashFn : String → String → String) (r1 r2 : RegReq)
    (s : ConcState) : Bool → ConcState
  | false =>
    let d := attemptStep hashFn r1 s.db s.p1
    ⟨d.1, d.2, s.p2⟩
  | true =>
    let d := attemptStep hashFn r2 s.db s.p2
    ⟨d.1, s.p1, d.2⟩

/-- Execute a schedule, an interleaving of the phases of the two attempts. -/
def runSched (hashFn : String → String → String) (r1 r2 : RegReq) :
    List Bool → ConcState → ConcState
  | [], s => s
  | i :: rest, s => runSched hashFn r1 r2 rest (concStep hashFn r1 r2 s i)

/-!
Helper lemmas shared by the claim theorems.
-/

/-- The head of a list, when present, is a member. -/
theorem mem_of_head?_eq {α : Type} {l : List α} {a : α} (h : l.head? = some a) :
    a ∈ l := by
  cases l with
  | nil => simp at h
  | cons x xs =>
    simp only [List.head?_cons, Option.some.injEq] at h
    subst h
    exact List.mem_cons_self x xs

/-- A row that the `WHERE id = $4` clause of the activation UPDATE does not
select passes through `activateRow` unchanged. -/
theorem mem_activateRow_of_ne {db : AuthDb} {r : AuthRow} {rowId : Nat}
    (hr : r ∈ db) (hne : (r.id == rowId) = false) (salt token ph : String) :
    r ∈ activateRow db rowId salt token ph := by
  unfold activateRow
  have h2 := List.mem_map_of_mem
    (fun x : AuthRow => if x.id == rowId then
      { x with salt := some salt, token := some token, pass_hash := some ph }
    else x) hr
  simpa [hne] using h2

/-- Control-flow case split of the register handler on the committed table
it leaves behind: either the table is unchanged, or the SELECT found a row
with a falsy token and the table is that row's activation. -/
theorem register_store_cases (hashFn : String → String → String)
    (fs ft : String) (e : RegErrors) (db : AuthDb) (name : String)
    (pass : Option String) :
    (register hashFn fs ft e db name pass).store = db ∨
    ∃ row, (findRows db name).head? = some row ∧
      jsTruthyToken row.token = false ∧
      ∃ ph, (register hashFn fs ft e db name pass).store
        = activateRow db row.id fs ft ph := by
  unfold register
  by_cases hb : e.errBegin
  · simp [hb, RegOutcome.store]
  by_cases hs : e.errSelect
  · simp [hb, hs, RegOutcome.store]
  rcases hh : (findRows db name).head? with _ | row
  · simp [hb, hs, hh, RegOutcome.store]
  by_cases ht : jsTruthyToken row.token
  · simp [hb, hs, hh, ht, RegOutcome.store]
  rcases hp : generatePasswordHashOn hashFn pass (some fs) with u | ph
  · simp [hb, hs, hh, ht, hp, RegOutcome.store]
  by_cases hu : e.errUpdate
  · simp [hb, hs, hh, ht, hp, hu, RegOutcome.store]
  by_cases hc : e.errCommit
  · simp [hb, hs, hh, ht, hp, hu, hc, RegOutcome.store]
  · right
    refine ⟨row, rfl, by simp [ht], ph, ?_⟩
    simp [hb, hs, hh, ht, hp, hu, hc, RegOutcome.store]

/-- C1, counterexample to the claim as stated: the row for `bob` already
has a PRESENT (non-NULL) token, the empty string, yet registration does not
answer AlreadyRegistered — the handler tests JavaScript truthiness
(`!result.rows[0]['token']`), treats the empty-string token as absent,
answers 201 and overwrites the stored token. -/
theorem register_empty_token_overwritten :
    register hashCat "S" "T" noErrors [⟨1, "bob", none, some "", none⟩]
      "bob" (some "pw")
      = .responded [⟨1, "bob", some "S", some "T", some "pw|S"⟩] 201
          (.regOk "bob" 201) := by decide

/-- C1 (amended: a present token blocks re-registration provided it is
non-empty, because the handler tests JS truthiness of the token value):
when the SELECT of the register handler finds a row whose token is a
non-empty string, the handler answers 409 Conflict and the committed table
is left entirely unchanged; and, in general, no register call (the only
mutating operation of the subsystem — `login` and `userIsAuthorized` never
write) ever removes or alters a row holding a non-empty token, for any
inputs and any injected store errors, assuming the store-level uniqueness
of row ids. -/
theorem register_already_registered_conflict
    (hashFn : String → String → String) (fs ft : String) (e : RegErrors)
    (db : AuthDb) (name : String) (pass : Option String) (row : AuthRow)
    (t : String) (hrow : (findRows db name).head? = some row)
    (htok : row.token = some t) (hne : t ≠ "")
    (hb : e.errBegin = false) (hs : e.errSelect = false) :
    register hashFn fs ft e db name pass
      = .responded db 409 (.regErr 409 "User is already registered!")
    ∧ ∀ (hashFn2 : String → String → String) (fs2 ft2 : String)
        (e2 : RegErrors) (db2 : AuthDb) (name2 : String)
        (pass2 : Option String),
        (db2.map AuthRow.id).Nodup →
        ∀ r ∈ db2, ∀ t2 : String, r.token = some t2 → t2 ≠ "" →
          r ∈ (register hashFn2 fs2 ft2 e2 db2 name2 pass2).store := by
  constructor
  · have htr : jsTruthyToken row.token = true := by
      simp [jsTruthyToken, htok, hne]
    simp [register, hb, hs, hrow, htr]
  · intro hashFn2 fs2 ft2 e2 db2 name2 pass2 hnd r hr t2 ht2 hne2
    rcases register_store_cases hashFn2 fs2 ft2 e2 db2 name2 pass2 with
      hcase | ⟨row2, hhead, htok2, ph, hst⟩
    · rw [hcase]; exact hr
    · rw [hst]
      have hrowmem : row2 ∈ db2 :=
        (List.mem_filter.mp (mem_of_head?_eq hhead)).1
      refine mem_activateRow_of_ne hr ?_ fs2 ft2 ph
      rw [beq_eq_false_iff_ne]
      intro hid
      have heq : r = row2 :=
        List.inj_on_of_nodup_map hnd hr hrowmem hid
      rw [← heq, ht2] at htok2
      simp [jsTruthyToken, hne2] at htok2

/-- Witness for `register_already_registered_conflict` at a concrete table
holding a registered row for `bob` with the non-empty token `tok`. -/
theorem register_already_registered_conflict_witness :
    (findRows [⟨1, "bob", some "sa", some "tok", some "ha"⟩] "bob").head?
      = some ⟨1, "bob", some "sa", some "tok", some "ha"⟩
    ∧ (⟨1, "bob", some "sa", some "tok", some "ha"⟩ : AuthRow).token
      = some "tok"
    ∧ "tok" ≠ ""
    ∧ noErrors.errBegin = false
    ∧ noErrors.errSelect = false
    ∧ (register hashCat "S" "T" noErrors
        [⟨1, "bob", some "sa", some "tok", some "ha"⟩] "bob" (some "pw")
        = .responded [⟨1, "bob", some "sa", some "tok", some "ha"⟩] 409
            (.regErr 409 "User is already registered!")
      ∧ ∀ (hashFn2 : String → String → String) (fs2 ft2 : String)
          (e2 : RegErrors) (db2 : AuthDb) (name2 : String)
          (pass2 : Option String),
          (db2.map AuthRow.id).Nodup →
          ∀ r ∈ db2, ∀ t2 : String, r.token = some t2 → t2 ≠ "" →
            r ∈ (register hashFn2 fs2 ft2 e2 db2 name2 pass2).store) :=
  ⟨by decide, by decide, by decide, by decide, by decide,
   register_already_registered_conflict hashCat "S" "T" noErrors
     [⟨1, "bob", some "sa", some "tok", some "ha"⟩] "bob" (some "pw")
     ⟨1, "bob", some "sa", some "tok", some "ha"⟩ "tok"
     (by decide) (by decide) (by decide) (by decide) (by decide)⟩

/-- C5: the source never surfaces a store failure of the activation step to
the caller.  At the concrete whitelisted, unregistered row for `bob`: when
the activation UPDATE fails, the handler rolls the transaction back and
leaves the row in its prior state, but sends NO response at all (the
`shouldAbort` path never touches `res`); when the COMMIT fails, the
transaction is aborted (the row again keeps its prior state) yet the
handler still answers 201 Created.  In neither case is a TransientStoreError
— or any error — reported. -/
theorem register_store_failure_silent :
    register hashCat "S" "T" ⟨false, false, true, false⟩
      [⟨1, "bob", none, none, none⟩] "bob" (some "pw")
      = .noResponse [⟨1, "bob", none, none, none⟩]
    ∧ register hashCat "S" "T" ⟨false, false, false, true⟩
        [⟨1, "bob", none, none, none⟩] "bob" (some "pw")
      = .responded [⟨1, "bob", none, none, none⟩] 201 (.regOk "bob" 201) := by
  decide

/-- C6: login for a whitelisted but not yet registered username (row
present, `salt` and `pass_hash` NULL) does not answer InvalidCredentials:
the handler finds the row and calls
`generatePasswordHash(pass, null)`, and Node's `pbkdf2Sync` throws a
`TypeError` on the NULL salt, so the request dies with an uncaught
exception instead of a 401 response. -/
theorem login_unregistered_row_throws :
    login hashCat false [⟨1, "bob", none, none, none⟩] "bob" (some "pw")
      = .threw := by decide

/-- C9: two concurrent registration attempts for the same whitelisted,
unregistered username CAN both succeed.  Under the schedule in which both
transactions run their SELECT before either runs its UPDATE (READ COMMITTED
lets both SELECTs see the token-less row, and neither the UPDATE condition
`WHERE id = $4` nor the isolation level re-checks the token), both attempts
answer 201 Created and the second activation silently overwrites the salt,
token and password hash written by the first. -/
theorem register_race_both_succeed :
    runSched hashCat ⟨"bob", "pw1", "S1", "T1"⟩ ⟨"bob", "pw2", "S2", "T2"⟩
      [false, true, false, true]
      ⟨[⟨1, "bob", none, none, none⟩], .start, .start⟩
      = ⟨[⟨1, "bob", some "S2", some "T2", some "pw2|S2"⟩],
         .finished 201, .finished 201⟩ := by decide

/-- C2: when the login SELECT returns exactly the one registered row for
the username (salt and password hash present), the handler answers 200 with
exactly the stored token iff the derivation of the presented password with
the stored salt equals the stored hash, and otherwise answers 401
InvalidCredentials with no token in the body. -/
theorem login_password_check (hashFn : String → String → String)
    (db : AuthDb) (name pass s ph : String) (row : AuthRow)
    (hrows : findRows db name = [row]) (hsalt : row.salt = some s)
    (hhash : row.pass_hash = some ph) :
    (hashFn pass s = ph →
      login hashFn false db name (some pass)
        = .responded 200 (.loginOk name 200 row.token))
    ∧ (hashFn pass s ≠ ph →
      login hashFn false db name (some pass)
        = .responded 401 (.loginErr name 401 loginErrMsg)) := by
  constructor
  · intro heq
    simp [login, hrows, generatePasswordHashOn, hsalt, hhash, heq]
  · intro hne
    simp [login, hrows, generatePasswordHashOn, hsalt, hhash]
    exact fun h => hne h.symm

/-- Witness for `login_password_check` at a concrete registered row for
`carol` whose stored hash is the `hashCat` derivation of `pw` with salt
`s1`. -/
theorem login_password_check_witness :
    findRows [⟨2, "carol", some "s1", some "t1", some "pw|s1"⟩] "carol"
      = [⟨2, "carol", some "s1", some "t1", some "pw|s1"⟩]
    ∧ (⟨2, "carol", some "s1", some "t1", some "pw|s1"⟩ : AuthRow).salt
      = some "s1"
    ∧ (⟨2, "carol", some "s1", some "t1", some "pw|s1"⟩ : AuthRow).pass_hash
      = some "pw|s1"
    ∧ ((hashCat "pw" "s1" = "pw|s1" →
        login hashCat false [⟨2, "carol", some "s1", some "t1", some "pw|s1"⟩]
          "carol" (some "pw")
          = .responded 200 (.loginOk "carol" 200 (some "t1")))
      ∧ (hashCat "pw" "s1" ≠ "pw|s1" →
        login hashCat false [⟨2, "carol", some "s1", some "t1", some "pw|s1"⟩]
          "carol" (some "pw")
          = .responded 401 (.loginErr "carol" 401 loginErrMsg))) :=
  ⟨by decide, by decide, by decide,
   login_password_check hashCat
     [⟨2, "carol", some "s1", some "t1", some "pw|s1"⟩] "carol" "pw" "s1"
     "pw|s1" ⟨2, "carol", some "s1", some "t1", some "pw|s1"⟩
     (by decide) (by decide) (by decide)⟩

/-- C4: registration for a username with no row in `hardball.auth` answers
403 Forbidden with the not-allowed-to-register error, and no register call
for that username ever mutates the table, whatever store errors occur. -/
theorem register_not_whitelisted (hashFn : String → String → String)
    (fs ft : String) (e : RegErrors) (db : AuthDb) (name : String)
    (pass : Option String) (hnone : findRows db name = [])
    (hb : e.errBegin = false) (hs : e.errSelect = false) :
    register hashFn fs ft e db name pass
      = .responded db 403
          (.regErr 403 "This user is not allowed to register!")
    ∧ ∀ e2 : RegErrors,
        (register hashFn fs ft e2 db name pass).store = db := by
  constructor
  · simp [register, hb, hs, hnone]
  · intro e2
    rcases register_store_cases hashFn fs ft e2 db name pass with
      hc | ⟨row, hhead, -, -⟩
    · exact hc
    · rw [hnone] at hhead
      simp at hhead

/-- Witness for `register_not_whitelisted` at a table that holds only a row
for `bob`, registering the absent username `eve`. -/
theorem register_not_whitelisted_witness :
    findRows [⟨1, "bob", none, none, none⟩] "eve" = []
    ∧ noErrors.errBegin = false
    ∧ noErrors.errSelect = false
    ∧ (register hashCat "S" "T" noErrors [⟨1, "bob", none, none, none⟩]
        "eve" (some "pw")
        = .responded [⟨1, "bob", none, none, none⟩] 403
            (.regErr 403 "This user is not allowed to register!")
      ∧ ∀ e2 : RegErrors,
          (register hashCat "S" "T" e2 [⟨1, "bob", none, none, none⟩]
            "eve" (some "pw")).store = [⟨1, "bob", none, none, none⟩]) :=
  ⟨by decide, by decide, by decide,
   register_not_whitelisted hashCat "S" "T" noErrors
     [⟨1, "bob", none, none, none⟩] "eve" (some "pw")
     (by decide) (by decide) (by decide)⟩

/-- C7, counterexample to the claim as stated: two failing login requests —
`alice`, unknown to the table, and `bob`, registered with a wrong password
— do NOT produce the same error payload, because the body echoes the
requested username (`'user': name`); the two 401 responses differ in that
field. -/
theorem login_error_payloads_differ :
    login hashCat false [⟨1, "bob", some "s", some "t", some "h"⟩]
      "alice" (some "pw")
      ≠ login hashCat false [⟨1, "bob", some "s", some "t", some "h"⟩]
          "bob" (some "x") := by decide

/-- C7 (amended: the unknown-username and wrong-password failures are
indistinguishable whenever the two requests present the same username; the
payloads differ at most in the echoed username field, which is a function
of the request, never of the table): a login for a username absent from one
table and a login for the same username registered in another table with a
non-matching password produce literally identical responses — status 401
and the same body — so the response never reveals whether the username
exists. -/
theorem login_failure_indistinguishable (hashFn : String → String → String)
    (db1 db2 : AuthDb) (name pass1 pass2 s ph : String) (row : AuthRow)
    (h1 : findRows db1 name = [])
    (h2 : findRows db2 name = [row]) (hsalt : row.salt = some s)
    (hhash : row.pass_hash = some ph) (hwrong : hashFn pass2 s ≠ ph) :
    login hashFn false db1 name (some pass1)
      = login hashFn false db2 name (some pass2)
    ∧ login hashFn false db1 name (some pass1)
      = .responded 401 (.loginErr name 401 loginErrMsg) := by
  have hb : login hashFn false db1 name (some pass1)
      = .responded 401 (.loginErr name 401 loginErrMsg) := by
    simp [login, h1]
  have hc : login hashFn false db2 name (some pass2)
      = .responded 401 (.loginErr name 401 loginErrMsg) := by
    simp [login, h2, generatePasswordHashOn, hsalt, hhash]
    exact fun h => hwrong h.symm
  exact ⟨hb.trans hc.symm, hb⟩

/-- Witness for `login_failure_indistinguishable`: `bob` unknown in the
empty table versus `bob` registered with stored hash `h` and presented
password `x` (whose `hashCat` derivation is `x|s`). -/
theorem login_failure_indistinguishable_witness :
    findRows [] "bob" = []
    ∧ findRows [⟨1, "bob", some "s", some "t", some "h"⟩] "bob"
      = [⟨1, "bob", some "s", some "t", some "h"⟩]
    ∧ (⟨1, "bob", some "s", some "t", some "h"⟩ : AuthRow).salt = some "s"
    ∧ (⟨1, "bob", some "s", some "t", some "h"⟩ : AuthRow).pass_hash
      = some "h"
    ∧ hashCat "x" "s" ≠ "h"
    ∧ (login hashCat false [] "bob" (some "pw")
        = login hashCat false [⟨1, "bob", some "s", some "t", some "h"⟩]
            "bob" (some "x")
      ∧ login hashCat false [] "bob" (some "pw")
        = .responded 401 (.loginErr "bob" 401 loginErrMsg)) :=
  ⟨by decide, by decide, by decide, by decide, by decide,
   login_failure_indistinguishable hashCat []
     [⟨1, "bob", some "s", some "t", some "h"⟩] "bob" "pw" "x" "s" "h"
     ⟨1, "bob", some "s", some "t", some "h"⟩
     (by decide) (by decide) (by decide) (by decide) (by decide)⟩

/-- C10: when the login SELECT finds the registered row but the request
body carries no string password (`undefined` or a non-string value,
embedded as `none`), the handler does not resolve to an InvalidCredentials
response: `crypto.pbkdf2Sync` throws a `TypeError` on the non-string
password, and the uncaught exception kills the request — login is total
only over string passwords. -/
theorem login_missing_password_throws (hashFn : String → String → String)
    (db : AuthDb) (name s ph : String) (row : AuthRow)
    (hrows : findRows db name = [row]) (hsalt : row.salt = some s)
    (hhash : row.pass_hash = some ph) :
    login hashFn false db name none = .threw := by
  simp [login, hrows, generatePasswordHashOn]

/-- Witness for `login_missing_password_throws` at a concrete registered
row for `dan`, with the password field absent from the request body. -/
theorem login_missing_password_throws_witness :
    findRows [⟨3, "dan", some "s2", some "t2", some "h2"⟩] "dan"
      = [⟨3, "dan", some "s2", some "t2", some "h2"⟩]
    ∧ (⟨3, "dan", some "s2", some "t2", some "h2"⟩ : AuthRow).salt
      = some "s2"
    ∧ (⟨3, "dan", some "s2", some "t2", some "h2"⟩ : AuthRow).pass_hash
      = some "h2"
    ∧ login hashCat false [⟨3, "dan", some "s2", some "t2", some "h2"⟩]
        "dan" none = .threw :=
  ⟨by decide, by decide, by decide,
   login_missing_password_throws hashCat
     [⟨3, "dan", some "s2", some "t2", some "h2"⟩] "dan" "s2" "h2"
     ⟨3, "dan", some "s2", some "t2", some "h2"⟩
     (by decide) (by decide) (by decide)⟩

/-- With store-level uniqueness of usernames, at most one row satisfies a
predicate that pins the username to a single value. -/
theorem filter_keyed_length_le_one (db : AuthDb)
    (huniq : (db.map AuthRow.username).Nodup) (P : AuthRow → Bool)
    (u : String) (hP : ∀ r, P r = true → r.username = u) :
    (db.filter P).length ≤ 1 := by
  induction db with
  | nil => simp
  | cons r rest ih =>
    rw [List.map_cons, List.nodup_cons] at huniq
    by_cases hr : P r = true
    · have hrest : rest.filter P = [] := by
        rw [List.filter_eq_nil_iff]
        intro a ha hPa
        exact huniq.1 (by
          have hru : r.username = a.username := by rw [hP r hr, hP a hPa]
          rw [hru]
          exact List.mem_map_of_mem AuthRow.username ha)
      simp [List.filter_cons, hr, hrest]
    · simp only [List.filter_cons, if_neg hr]
      exact ih huniq.2

/-- The SQL existence query of `userIsAuthorized` — `rows.length === 1` for
`WHERE username=$1 AND token=$2` — holds iff some row matches both the
username and a non-NULL token parameter, given unique usernames. -/
theorem filter_auth_length_eq_one_iff (db : AuthDb) (u : String)
    (tok : Option String) (huniq : (db.map AuthRow.username).Nodup) :
    ((db.filter
        (fun r => r.username == u && sqlEq r.token tok)).length == 1) = true
    ↔ ∃ r ∈ db, r.username = u
        ∧ ∃ t : String, tok = some t ∧ r.token = some t := by
  rw [beq_iff_eq]
  constructor
  · intro h
    have hne : db.filter (fun r => r.username == u && sqlEq r.token tok)
        ≠ [] := by
      intro hnil
      rw [hnil] at h
      simp at h
    obtain ⟨r, hrmem⟩ := List.exists_mem_of_ne_nil _ hne
    obtain ⟨hrdb, hPr⟩ := List.mem_filter.mp hrmem
    rw [Bool.and_eq_true, beq_iff_eq] at hPr
    obtain ⟨hu, hsq⟩ := hPr
    refine ⟨r, hrdb, hu, ?_⟩
    cases htok : tok with
    | none =>
      rw [htok] at hsq
      cases hrt : r.token <;> rw [hrt] at hsq <;> simp [sqlEq] at hsq
    | some t =>
      rw [htok] at hsq
      cases hrt : r.token with
      | none => rw [hrt] at hsq; simp [sqlEq] at hsq
      | some a =>
        rw [hrt] at hsq
        simp [sqlEq] at hsq
        exact ⟨t, rfl, by rw [hsq]⟩
  · rintro ⟨r, hrdb, hu, t, htok, hrt⟩
    have hPr : (r.username == u && sqlEq r.token tok) = true := by
      simp [hu, htok, hrt, sqlEq]
    have hmem : r ∈ db.filter (fun r => r.username == u && sqlEq r.token tok) :=
      List.mem_filter.mpr ⟨hrdb, hPr⟩
    have hge : 0 <
        (db.filter (fun r => r.username == u && sqlEq r.token tok)).length :=
      List.length_pos.mpr (List.ne_nil_of_mem hmem)
    have hle := filter_keyed_length_le_one db huniq
      (fun r => r.username == u && sqlEq r.token tok) u
      (fun r' hP' => by
        rw [Bool.and_eq_true, beq_iff_eq] at hP'
        exact hP'.1)
    omega

/-- C3, counterexample to the claim as stated: the source splits the
credential at EVERY colon and uses only `split[1]`, not at the first colon
only.  With the stored row `(alice, token t)`, the credential
`"alice:t:x"` is accepted by `userIsAuthorized` (the trailing `:x` is
silently ignored), whereas the claimed first-colon contract
(`authorizedSpec`, whose token component would be `"t:x"`) rejects it. -/
theorem userIsAuthorized_ignores_second_colon :
    userIsAuthorized [⟨1, "alice", some "s", some "t", some "h"⟩]
      "alice:t:x" = true
    ∧ authorizedSpec [⟨1, "alice", some "s", some "t", some "h"⟩]
        "alice:t:x" = false := by decide

/-- C3 (amended: the two components are `split[0]` and `split[1]` of the
JavaScript split at EVERY colon — the username is the text before the first
colon and the token component is the text strictly between the first and
second colon, so a stored token containing a colon can never match and any
text after a second colon is ignored): assuming store-level uniqueness of
usernames, `userIsAuthorized` returns true iff a stored row's username and
token exactly match those two components, and it returns false — never
throwing, the function is total — when the delimiter is missing (the token
component is then SQL NULL and matches no row) or when no row matches. -/
theorem userIsAuthorized_split_iff (db : AuthDb) (auth : String)
    (huniq : (db.map AuthRow.username).Nodup) :
    (userIsAuthorized db auth = true ↔
      ∃ r ∈ db, r.username = (splitColon auth).getD 0 ""
        ∧ ∃ t : String, (splitColon auth)[1]? = some t ∧ r.token = some t)
    ∧ ((splitColon auth)[1]? = none → userIsAuthorized db auth = false) := by
  have hchar : userIsAuthorized db auth
      = ((db.filter (fun r => r.username == (splitColon auth).getD 0 ""
          && sqlEq r.token (splitColon auth)[1]?)).length == 1) := rfl
  constructor
  · rw [hchar]
    exact filter_auth_length_eq_one_iff db _ _ huniq
  · intro hnone
    rw [hchar]
    have hnil : db.filter (fun r => r.username == (splitColon auth).getD 0 ""
        && sqlEq r.token (splitColon auth)[1]?) = [] := by
      rw [List.filter_eq_nil_iff]
      intro r hr
      rw [hnone]
      cases r.token <;> simp [sqlEq]
    rw [hnil]
    rfl

/-- Witness for `userIsAuthorized_split_iff` at a one-row table for `alice`
and the well-formed credential `"alice:t"`. -/
theorem userIsAuthorized_split_iff_witness :
    (([⟨1, "alice", some "s", some "t", some "h"⟩] : AuthDb).map
      AuthRow.username).Nodup
    ∧ ((userIsAuthorized [⟨1, "alice", some "s", some "t", some "h"⟩]
          "alice:t" = true ↔
        ∃ r ∈ ([⟨1, "alice", some "s", some "t", some "h"⟩] : AuthDb),
          r.username = (splitColon "alice:t").getD 0 ""
          ∧ ∃ t : String, (splitColon "alice:t")[1]? = some t
              ∧ r.token = some t)
      ∧ ((splitColon "alice:t")[1]? = none →
          userIsAuthorized [⟨1, "alice", some "s", some "t", some "h"⟩]
            "alice:t" = false)) :=
  ⟨by decide,
   userIsAuthorized_split_iff [⟨1, "alice", some "s", some "t", some "h"⟩]
     "alice:t" (by decide)⟩

/-- A SHA-256 digest is 32 bytes, whatever the message: the digest is the
big-endian serialisation of the eight final state words. -/
theorem sha256_length (msg : List Nat) : (sha256 msg).length = 32 := rfl

/-- An HMAC-SHA256 tag is 32 bytes: it is the outer SHA-256 digest. -/
theorem hmacSha256_length (key msg : List Nat) :
    (hmacSha256 key msg).length = 32 := rfl

/-- The xor-accumulation loop of a PBKDF2 block preserves the 32-byte
accumulator length. -/
theorem pbkdf2Loop_length (pw : List Nat) (n : Nat) (u acc : List Nat)
    (h : acc.length = 32) : (pbkdf2Loop pw n u acc).length = 32 := by
  induction n generalizing u acc with
  | zero => simpa [pbkdf2Loop] using h
  | succ k ih =>
    rw [pbkdf2Loop]
    apply ih
    simp [xorBytes, List.length_zipWith, h, hmacSha256_length]

/-- Every PBKDF2-HMAC-SHA256 block is 32 bytes. -/
theorem pbkdf2Block_length (pw salt : List Nat) (c i : Nat) :
    (pbkdf2Block pw salt c i).length = 32 :=
  pbkdf2Loop_length pw (c - 1) _ _ (hmacSha256_length pw _)

/-- A 64-byte PBKDF2-HMAC-SHA256 derived key really has 64 bytes: two
32-byte blocks, truncated to 64. -/
theorem pbkdf2Sha256_length64 (pw salt : List Nat) (c : Nat) :
    (pbkdf2Sha256 pw salt c 64).length = 64 := by
  have hr : List.range ((64 + 31) / 32) = [0, 1] := by decide
  rw [pbkdf2Sha256, hr]
  simp [List.length_take, pbkdf2Block_length]

/-- The hexadecimal digit of any value is one of the sixteen table
characters. -/
theorem hexDigit_mem (n : Nat) : hexDigit n ∈ hexTable := by
  have h : n % 16 < 16 := Nat.mod_lt _ (by norm_num)
  have h2 : ∀ m : Fin 16, hexTable.getD m.val '0' ∈ hexTable := by decide
  exact h2 ⟨n % 16, h⟩

/-- Hex encoding yields two characters per byte. -/
theorem flatMap_hex_length (bs : List Nat) :
    (bs.flatMap (fun b => [hexDigit (b / 16), hexDigit b])).length
      = 2 * bs.length := by
  induction bs with
  | nil => rfl
  | cons b rest ih =>
    rw [List.flatMap_cons, List.length_append, ih]
    simp
    omega

/-- Unfolding equation for the character data of a hex encoding. -/
theorem bytesToHexString_data (bs : List Nat) :
    (bytesToHexString bs).data
      = bs.flatMap (fun b => [hexDigit (b / 16), hexDigit b]) := rfl

/-- Every character of a hex encoding is a lowercase hexadecimal digit. -/
theorem flatMap_hex_charset (bs : List Nat) :
    ((bs.flatMap (fun b => [hexDigit (b / 16), hexDigit b])).all
      (fun c => decide (c ∈ hexTable))) = true := by
  rw [List.all_eq_true]
  intro c hc
  rw [List.mem_flatMap] at hc
  obtain ⟨b, hb, hcmem⟩ := hc
  have hcc : c = hexDigit (b / 16) ∨ c = hexDigit b := by
    simpa using hcmem
  rcases hcc with h | h <;> subst h <;> exact decide_eq_true (hexDigit_mem _)

set_option maxRecDepth 4000 in
/-- C8: the embedding of `generatePasswordHash` is a pure function of its
two string inputs — equal inputs give equal outputs on every call, there is
no ambient state — and it is exactly the hex encoding of
PBKDF2-HMAC-SHA256 with `pbkdf2Iterations = 100000 ≥ 100000` iterations and
a 64-byte derived key, so for every input pair the output has the fixed
length 128 and each of its characters is one of the sixteen lowercase
hexadecimal digits of `hexTable`. -/
theorem generatePasswordHash_spec :
    (∀ s sa : String, generatePasswordHash s sa = generatePasswordHash s sa)
    ∧ pbkdf2Iterations = 100000
    ∧ 100000 ≤ pbkdf2Iterations
    ∧ (∀ s sa : String, generatePasswordHash s sa
        = bytesToHexString
            (pbkdf2Sha256 (strBytes s) (strBytes sa) pbkdf2Iterations 64))
    ∧ (∀ s sa : String, (generatePasswordHash s sa).length = 128)
    ∧ (∀ s sa : String, ((generatePasswordHash s sa).data.all
        (fun c => decide (c ∈ hexTable))) = true) := by
  refine ⟨fun s sa => rfl, rfl, by norm_num [pbkdf2Iterations],
    fun s sa => rfl, ?_, ?_⟩
  · intro s sa
    show (bytesToHexString
      (pbkdf2Sha256 (strBytes s) (strBytes sa) pbkdf2Iterations 64)).length
      = 128
    show ((pbkdf2Sha256 (strBytes s) (strBytes sa) pbkdf2Iterations
      64).flatMap (fun b => [hexDigit (b / 16), hexDigit b])).length = 128
    rw [flatMap_hex_length, pbkdf2Sha256_length64]
  · intro s sa
    show ((bytesToHexString (pbkdf2Sha256 (strBytes s) (strBytes sa)
      pbkdf2Iterations 64)).data.all (fun c => decide (c ∈ hexTable))) = true
    rw [bytesToHexString_data]
    exact flatMap_hex_charset _
